import Mathlib

/-!
# Verification of the CSV-to-playlist track-matching engine

Shallow embedding of the two-phase fuzzy search-and-score algorithm of
`backend/download_service.py` (`DownloadService.normalize`,
`contains_keywords_in_order`, `score_phase1_result`,
`convert_csv_to_m4a`, `convert_csv_to_playlist`).

Modelling conventions:
* Python strings are Lean `String`s; the regex character classes `\w` and `\s`
  are modelled over ASCII (`Char.isAlphanum`/underscore, the six ASCII
  whitespace characters).  All concrete inputs used below are ASCII.
* Python floats (durations, scores) are `ℚ`; `int(x)` on the nonnegative
  score is `⌊x⌋`.
* Python truthiness: an empty string is falsy, `None` and `0.0` are falsy.
  The optional reference duration `spotify_sec` is `Option ℚ` and the code's
  `if spotify_sec:` test is `some s` with `s ≠ 0`.
* The external yt-dlp provider is a stub function from the query string to a
  fixed `VariantResponse` (flat-search entries, wide-search entries, the
  full-metadata fetch results in completion order, and the download outcome
  per download spec).  Fetch failures and the age-restriction signal both
  make `fetch_metadata` return `none`, exactly as the Python returns `None`.
-/

namespace MyMusic

/-! ## Basic string machinery (Python semantics) -/

/-- Python `s.lower()`.  (`String.toLower` is definitionally equal but is
defined by well-founded recursion on byte positions, which the kernel cannot
evaluate; this list-based form computes.) -/
def toLow (s : String) : String :=
  ⟨s.data.map Char.toLower⟩

/-- ASCII model of the regex class `\w`. -/
def isWordChar (c : Char) : Bool :=
  c.isAlphanum || c = '_'

/-- ASCII model of the regex class `\s` / `str.split()` whitespace. -/
def isPyWhite (c : Char) : Bool :=
  c = ' ' || c = '\t' || c = '\n' || c = '\r' || c = '\x0b' || c = '\x0c'

/-- Python `needle in hay` (substring containment) on char lists. -/
def containsSub (needle : List Char) : List Char → Bool
  | [] => needle.isEmpty
  | c :: t => needle.isPrefixOf (c :: t) || containsSub needle t

/-- Python `needle in hay` on strings. -/
def strContains (hay needle : String) : Bool :=
  containsSub needle.data hay.data

/-- Python `hay.startswith(pre)`. -/
def strStartsWith (hay pre : String) : Bool :=
  pre.data.isPrefixOf hay.data

/-- Python `txt.find(kw)` restricted to a suffix: index of the first
occurrence of `needle` in `hay`, if any. -/
def findSub (needle : List Char) : List Char → Option ℕ
  | [] => if needle.isEmpty then some 0 else none
  | c :: t => if needle.isPrefixOf (c :: t) then some 0 else (findSub needle t).map (· + 1)

/-- Helper for Python `str.split()`: accumulate the current word (reversed). -/
def pyWordsAux : List Char → List Char → List (List Char)
  | [], cur => if cur.isEmpty then [] else [cur.reverse]
  | c :: rest, cur =>
    if isPyWhite c then
      if cur.isEmpty then pyWordsAux rest []
      else cur.reverse :: pyWordsAux rest []
    else pyWordsAux rest (c :: cur)

/-- Python `s.split()`: split on whitespace runs, no empty words. -/
def pyWords (s : String) : List String :=
  (pyWordsAux s.data []).map String.mk

/-- Python `s.strip()`. -/
def pyStrip (s : String) : String :=
  ⟨((s.data.dropWhile isPyWhite).reverse.dropWhile isPyWhite).reverse⟩

/-- Python `re.sub(r"[^\w\s]", "", s)`: drop everything that is neither a
word character nor whitespace (no lowercasing). -/
def stripPunct (s : String) : String :=
  ⟨s.data.filter (fun c => isWordChar c || isPyWhite c)⟩

/-- `DownloadService.normalize`: lowercase, then strip non-word non-space
characters. -/
def normalize (s : String) : String :=
  ⟨(toLow s).data.filter (fun c => isWordChar c || isPyWhite c)⟩

/-- Loop of `contains_keywords_in_order`: `pos` is the Python search start;
each keyword must be found at an index `≥ pos`, and the next search starts
right after the end of that match. -/
def ckiAux (txt : List Char) : ℕ → List (List Char) → Bool
  | _, [] => true
  | pos, kw :: rest =>
    match findSub kw (txt.drop pos) with
    | none => false
    | some i => ckiAux txt (pos + i + kw.length) rest

/-- `DownloadService.contains_keywords_in_order`. -/
def contains_keywords_in_order (candidateTitle : String) (keywords : List String) : Bool :=
  ckiAux (normalize candidateTitle).data 0 (keywords.map String.data)

/-! ## Phase-1 scorer (`score_phase1_result`) -/

/-- Title component of `score_phase1_result` (the `score += 40/30/(…*20)`
block).  The Python lowercases `vid_title` and `safe_title` once at the top;
lowercasing here per component is the same pure computation. -/
def codeTitlePts (vidTitle safeTitle : String) : ℚ :=
  let vt := toLow vidTitle
  let st := toLow safeTitle
  if strContains vt st then
    if strStartsWith vt st then 40 else 30
  else
    let titleWords := pyWords st
    let matchedWords := (titleWords.filter (fun w => strContains vt w)).length
    if 0 < matchedWords then ((matchedWords : ℚ) / (titleWords.length : ℚ)) * 20 else 0

/-- Artist component of `score_phase1_result` (the
`if safe_artist and safe_artist.lower() != 'unknown'` block). -/
def codeArtistPts (uploader safeArtist : String) : ℚ :=
  let up := toLow uploader
  if safeArtist ≠ "" ∧ toLow safeArtist ≠ "unknown" then
    if strContains up (toLow safeArtist) then 30
    else
      let artistWords := pyWords (toLow safeArtist)
      let matchedWords := (artistWords.filter (fun w => strContains up w)).length
      if 0 < matchedWords then ((matchedWords : ℚ) / (artistWords.length : ℚ)) * 15 else 0
  else 0

/-- Duration component of `score_phase1_result` (the
`if duration >= duration_min and duration <= duration_max` block).
`spotifySec = some s` with `s ≠ 0` is Python's `if spotify_sec:`. -/
def codeDurationPts (duration : ℚ) (spotifySec : Option ℚ)
    (durationMin durationMax : ℚ) : ℚ :=
  if durationMin ≤ duration ∧ duration ≤ durationMax then
    20 +
      match spotifySec with
      | some s =>
        if s ≠ 0 then
          if |duration - s| ≤ 5 then 10
          else if |duration - s| ≤ 10 then 5
          else 0
        else 0
      | none => 0
  else 0

/-- The accumulated `score` of `score_phase1_result` before the final
`int(…)` conversion: three additive independent components. -/
def score_phase1_core (vidTitle uploader : String) (duration : ℚ)
    (safeTitle safeArtist : String) (spotifySec : Option ℚ)
    (durationMin durationMax : ℚ) : ℚ :=
  codeTitlePts vidTitle safeTitle + codeArtistPts uploader safeArtist +
    codeDurationPts duration spotifySec durationMin durationMax

/-- `DownloadService.score_phase1_result`.  Python's `int(score)` truncates
toward zero; the score is nonnegative (proved below), so `⌊·⌋` agrees. -/
def score_phase1_result (vidTitle uploader : String) (duration : ℚ)
    (safeTitle safeArtist : String) (spotifySec : Option ℚ)
    (durationMin durationMax : ℚ) : ℤ :=
  ⌊score_phase1_core vidTitle uploader duration safeTitle safeArtist
      spotifySec durationMin durationMax⌋

/-! ## Data model: rows, candidates, provider stub -/

/-- One parsed CSV record.  The Python reads the logical columns through
falsy-`or` chains over two header spellings (`row.get('Track Name') or
row.get('Track name') or 'Unknown'`); here each logical column is a single
field where `""` stands for a missing or empty cell. -/
structure SourceRow where
  trackName : String
  artistNames : String
  albumName : String
  durationMs : String
  deriving DecidableEq, Repr

/-- A yt-dlp JSON record (used both for flat search entries and for the full
metadata fetched in Phase 2).  `webpageUrl = none` models a missing
`webpage_url` key (the code reads it with `.get` and a default). -/
structure VideoInfo where
  id : String
  title : String
  uploader : String
  duration : ℚ
  webpageUrl : Option String
  deriving DecidableEq, Repr

/-- Outcome of one Phase-2 full-metadata fetch, in completion order.
`fetch_metadata` in the code returns `None` both when yt-dlp's stderr shows
the age-restriction message and when the JSON cannot be parsed. -/
inductive FetchResult where
  | ok (info : VideoInfo)
  | ageRestricted
  | malformed
  deriving DecidableEq, Repr

/-- `fetch_metadata`'s observable result: the age-restriction signal and a
malformed response are both collapsed to `None`. -/
def fetch_metadata : FetchResult → Option VideoInfo
  | .ok info => some info
  | .ageRestricted => none
  | .malformed => none

/-- Outcome of the m4a download subprocess for one variant:
`fileCreated` = exit 0 and the `.m4a` file exists; `noNewFile` = exit 0 but
no file (e.g. the download archive skipped it); `ageRestricted` = nonzero
exit with the age message in stderr; `otherFailure` = any other nonzero
exit. -/
inductive DownloadOutcome where
  | fileCreated
  | noNewFile
  | ageRestricted
  | otherFailure
  deriving DecidableEq, Repr

/-- Stubbed provider responses for one query string: the `ytsearch1` flat
entries, the `ytsearch3` flat entries, the full-metadata fetch results in
completion order (one per submitted candidate), and — in download mode —
the download outcome as a function of the download spec passed to yt-dlp. -/
structure VariantResponse where
  searchEntries : List VideoInfo
  wideEntries : List VideoInfo
  fetchCompletion : List FetchResult
  downloadOutcome : String → DownloadOutcome

/-- Per-row matching context, derived from a `SourceRow` (see `mkRowCtx`). -/
structure RowCtx where
  title : String
  artistPrimary : String
  safeArtist : String
  safeTitle : String
  album : String
  spotifySec : Option ℚ
  durationMin : ℚ
  durationMax : ℚ
  deriving DecidableEq, Repr

/-- A matched playlist track (`best_track` in `convert_csv_to_playlist`):
title/artist/album come from the source row, not from the candidate. -/
structure Track where
  title : String
  artist : String
  album : String
  url : String
  thumbnail : String
  duration : ℚ
  deriving DecidableEq, Repr

/-- A `not_found` record (`'Track Name'/'Artist Name(s)'/'Album Name'/
'Track Number'/'Error'`). -/
structure NotFoundEntry where
  trackName : String
  artistNames : String
  albumName : String
  trackNumber : ℕ
  error : String
  deriving DecidableEq, Repr

/-- `https://www.youtube.com/watch?v=` ++ id. -/
def watchUrl (id : String) : String :=
  "https://www.youtube.com/watch?v=" ++ id

/-- `https://img.youtube.com/vi/` ++ id ++ `/maxresdefault.jpg`. -/
def thumbUrl (id : String) : String :=
  "https://img.youtube.com/vi/" ++ id ++ "/maxresdefault.jpg"

/-! ## Row derivation (shared preamble of both conversion loops) -/

/-- The segment of the artist string before the first `, / &` or
case-insensitive ` feat.` / ` ft.` separator (regex
`re.split(r'[,/&]| feat\.| ft\.', artist_raw, flags=re.I)[0]`). -/
def splitArtistAux : List Char → List Char
  | [] => []
  | c :: rest =>
    if c = ',' ∨ c = '/' ∨ c = '&' then []
    else if " feat.".data.isPrefixOf ((c :: rest).map Char.toLower) then []
    else if " ft.".data.isPrefixOf ((c :: rest).map Char.toLower) then []
    else c :: splitArtistAux rest

/-- `artist_primary`: first split segment, stripped. -/
def artistPrimaryOf (artistRaw : String) : String :=
  pyStrip ⟨splitArtistAux artistRaw.data⟩

/-- ASCII digit-string to number (Python `int` on an `isdigit` string). -/
def digitsToNat (l : List Char) : ℕ :=
  l.foldl (fun a c => 10 * a + (c.toNat - 48)) 0

/-- `spotify_sec = int(spotify_ms) / 1000 if spotify_ms and
spotify_ms.isdigit() else None`. -/
def parseSpotifySec (ms : String) : Option ℚ :=
  if ms ≠ "" ∧ ms.data.all Char.isDigit then some ((digitsToNat ms.data : ℚ) / 1000)
  else none

/-- Job configuration (`duration_min`, `duration_max`, `variants`).
`exclude_instrumentals` only alters the external download command and is
absorbed by the stubbed `downloadOutcome`. -/
structure JobConfig where
  durationMin : ℚ
  durationMax : ℚ
  variants : List String

/-- The per-row preamble both conversion loops share: titles, primary
artist, sanitized strings, album default, reference duration. -/
def mkRowCtx (cfg : JobConfig) (playlistName : String) (r : SourceRow) : RowCtx :=
  let title := if r.trackName = "" then "Unknown" else r.trackName
  let artistRaw := if r.artistNames = "" then "Unknown" else r.artistNames
  let artistPrimary := artistPrimaryOf artistRaw
  { title := title
    artistPrimary := artistPrimary
    safeArtist := stripPunct artistPrimary
    safeTitle := stripPunct title
    album := if r.albumName = "" then playlistName else r.albumName
    spotifySec := parseSpotifySec r.durationMs
    durationMin := cfg.durationMin
    durationMax := cfg.durationMax }

/-- `search_variants = variants.copy()`, with `'instrumental'` prepended
when the title mentions it. -/
def searchVariantsFor (variants : List String) (title : String) : List String :=
  if strContains (toLow title) "instrumental" then "instrumental" :: variants else variants

/-- The query string `q = ' '.join(parts)`. -/
def query (ctx : RowCtx) (variant : String) : String :=
  String.intercalate " "
    ([ctx.safeTitle]
      ++ (if ctx.safeArtist ≠ "" ∧ toLow ctx.safeArtist ≠ "unknown" then [ctx.safeArtist] else [])
      ++ (if variant ≠ "" then [variant] else []))

/-- The first five normalized words of the row title
(`self.normalize(title).split()[:5]`). -/
def firstWords (ctx : RowCtx) : List String :=
  (pyWords (normalize ctx.title)).take 5

/-- Phase-1 score of the top flat-search entry.  With no entries the code
scores the empty dict (`title=''`, `uploader=''`, `duration or 0 = 0`). -/
def phase1Score (ctx : RowCtx) (vr : VariantResponse) : ℤ :=
  score_phase1_result
    ((vr.searchEntries.head?.map VideoInfo.title).getD "")
    ((vr.searchEntries.head?.map VideoInfo.uploader).getD "")
    ((vr.searchEntries.head?.map VideoInfo.duration).getD 0)
    ctx.safeTitle ctx.safeArtist ctx.spotifySec ctx.durationMin ctx.durationMax

/-! ## Phase-2 resolver -/

/-- The Phase-2 pre-score filter chain (the five `continue` guards applied
to each fetched candidate). -/
def phase2_reject (ctx : RowCtx) (variant : String) (info : VideoInfo) : Bool :=
  let low := toLow info.title
  let up2 := toLow info.uploader
  if info.duration < ctx.durationMin ∨ info.duration > ctx.durationMax then true
  else if strContains (info.webpageUrl.getD "") "shorts/" ∨ strContains low "#shorts" then true
  else if toLow ctx.safeArtist ≠ "" ∧ ¬ strContains up2 (toLow ctx.safeArtist) then true
  else if variant ≠ "" ∧ ¬ strContains low (toLow variant) then true
  else if ¬ contains_keywords_in_order info.title (firstWords ctx) then true
  else false

/-- The Phase-2 score: 100 for a title prefix match, else 80, minus the
absolute duration difference when the reference duration is truthy. -/
def phase2_score (ctx : RowCtx) (info : VideoInfo) : ℚ :=
  (if strStartsWith (toLow info.title) (toLow ctx.safeTitle) then 100 else 80)
    - match ctx.spotifySec with
      | some s => if s ≠ 0 then |info.duration - s| else 0
      | none => 0

/-- `info.get('webpage_url', f"https://www.youtube.com/watch?v={id}")`. -/
def urlFromInfo (info : VideoInfo) : String :=
  info.webpageUrl.getD (watchUrl info.id)

/-- The playlist track built from a candidate (Phase 1 entry or Phase 2
fetch): row metadata plus candidate url/thumbnail/duration. -/
def trackFromInfo (ctx : RowCtx) (info : VideoInfo) : Track :=
  { title := ctx.title
    artist := ctx.artistPrimary
    album := ctx.album
    url := urlFromInfo info
    thumbnail := thumbUrl info.id
    duration := info.duration }

/-- Python `max(scored, key=lambda x: x[0])`: keeps the first maximum,
replacing only on a strictly greater key. -/
def pyMax {α : Type} : ℚ × α → List (ℚ × α) → ℚ × α
  | best, [] => best
  | best, x :: rest => pyMax (if best.1 < x.1 then x else best) rest

/-- The `as_completed` consumption loop of `convert_csv_to_playlist`'s
Phase 2: skip failed fetches, skip filtered candidates, score the rest;
a candidate with a non-empty id is appended to `scored` and, at score ≥ 90,
accepted immediately (remaining completions are abandoned). -/
def phase2_loop (ctx : RowCtx) (variant : String) :
    List FetchResult → List (ℚ × Track) → Option Track × List (ℚ × Track)
  | [], acc => (none, acc)
  | r :: rest, acc =>
    match fetch_metadata r with
    | none => phase2_loop ctx variant rest acc
    | some info =>
      if phase2_reject ctx variant info then phase2_loop ctx variant rest acc
      else
        let s := phase2_score ctx info
        if info.id ≠ "" then
          let acc' := acc ++ [(s, trackFromInfo ctx info)]
          if 90 ≤ s then (some (trackFromInfo ctx info), acc')
          else phase2_loop ctx variant rest acc'
        else phase2_loop ctx variant rest acc

/-- Phase-2 acceptance in playlist mode: the early-exit track if one was
found, else the max-scoring entry of `scored`, else nothing. -/
def phase2_select (ctx : RowCtx) (variant : String) (l : List FetchResult) : Option Track :=
  match phase2_loop ctx variant l [] with
  | (some t, _) => some t
  | (none, []) => none
  | (none, x :: xs) => some (pyMax x xs).2

/-- The same consumption loop in `convert_csv_to_m4a`'s Phase 2: it scores
identically but collects `(score, url)` pairs with no id gate. -/
def phase2_loop_m4a (ctx : RowCtx) (variant : String) :
    List FetchResult → List (ℚ × String) → Option String × List (ℚ × String)
  | [], acc => (none, acc)
  | r :: rest, acc =>
    match fetch_metadata r with
    | none => phase2_loop_m4a ctx variant rest acc
    | some info =>
      if phase2_reject ctx variant info then phase2_loop_m4a ctx variant rest acc
      else
        let s := phase2_score ctx info
        let acc' := acc ++ [(s, urlFromInfo info)]
        if 90 ≤ s then (some (urlFromInfo info), acc')
        else phase2_loop_m4a ctx variant rest acc'

/-- Phase-2 acceptance in m4a mode, as a url. -/
def phase2_select_m4a (ctx : RowCtx) (variant : String) (l : List FetchResult) : Option String :=
  match phase2_loop_m4a ctx variant l [] with
  | (some u, _) => some u
  | (none, []) => none
  | (none, x :: xs) => some (pyMax x xs).2

/-! ## Playlist-mode row resolution and job loop -/

/-- The `for variant in search_variants` loop of `convert_csv_to_playlist`.
Phase-1 score ≥ 70 accepts the top entry when it has an id; otherwise
Phase 2 runs on the wide search (empty wide search falls through to the
next variant), and an unresolved variant falls through likewise. -/
def resolve_row (provider : String → VariantResponse) (ctx : RowCtx) :
    List String → Option Track
  | [] => none
  | v :: rest =>
    let vr := provider (query ctx v)
    if 70 ≤ phase1Score ctx vr then
      match vr.searchEntries.head? with
      | some e => if e.id ≠ "" then some (trackFromInfo ctx e) else resolve_row provider ctx rest
      | none => resolve_row provider ctx rest
    else
      if (vr.wideEntries.take 3).isEmpty then resolve_row provider ctx rest
      else
        match phase2_select ctx v vr.fetchCompletion with
        | some t => some t
        | none => resolve_row provider ctx rest

/-- The row loop of `convert_csv_to_playlist` (rows enumerated from 1):
each row contributes its track or a `'No valid match found'` record. -/
def playlist_go (provider : String → VariantResponse) (cfg : JobConfig)
    (playlistName : String) : ℕ → List SourceRow → List Track × List NotFoundEntry
  | _, [] => ([], [])
  | i, r :: rest =>
    let ctx := mkRowCtx cfg playlistName r
    let res := resolve_row provider ctx (searchVariantsFor cfg.variants ctx.title)
    let next := playlist_go provider cfg playlistName (i + 1) rest
    match res with
    | some t => (t :: next.1, next.2)
    | none =>
      (next.1,
        { trackName := ctx.title, artistNames := ctx.artistPrimary, albumName := ctx.album,
          trackNumber := i, error := "No valid match found" } :: next.2)

/-- `DownloadService.convert_csv_to_playlist`, as the pair
`(tracks, not_found)`. -/
def convert_csv_to_playlist (provider : String → VariantResponse) (cfg : JobConfig)
    (playlistName : String) (rows : List SourceRow) : List Track × List NotFoundEntry :=
  playlist_go provider cfg playlistName 1 rows

/-! ## Download-mode (m4a) row resolution and job loop -/

/-- The download spec chosen by `convert_csv_to_m4a` for one variant:
Phase-1 accept uses the top entry's url; an empty wide search or an empty
Phase-2 outcome falls back to `ytsearch1:q`; otherwise the Phase-2 url. -/
def m4a_download_spec (ctx : RowCtx) (variant : String) (vr : VariantResponse) : String :=
  if 70 ≤ phase1Score ctx vr then
    match vr.searchEntries.head? with
    | some e => e.webpageUrl.getD (watchUrl e.id)
    | none => watchUrl ""
  else
    if (vr.wideEntries.take 3).isEmpty then "ytsearch1:" ++ query ctx variant
    else
      match phase2_select_m4a ctx variant vr.fetchCompletion with
      | some u => u
      | none => "ytsearch1:" ++ query ctx variant

/-- A `NotFoundEntry` for the given row context and reason. -/
def nfEntry (ctx : RowCtx) (i : ℕ) (err : String) : NotFoundEntry :=
  { trackName := ctx.title, artistNames := ctx.artistPrimary, albumName := ctx.album,
    trackNumber := i, error := err }

/-- Python `f"{i:03d}"`: decimal, zero-padded to at least three digits. -/
def pad3 (i : ℕ) : String :=
  (if i < 10 then "00" else if i < 100 then "0" else "") ++ toString i

/-- The output file base `f"{i:03d} - {file_title}"` plus a variant
suffix. -/
def m4aBase (ctx : RowCtx) (i : ℕ) (variant : String) : String :=
  pad3 i ++ " - " ++ pyStrip (stripPunct ctx.title)
    ++ (if variant ≠ "" then " - " ++ variant else "")

/-- The m4a variant loop: an age-restricted download records the distinct
reason and leaves the loop with no file; other failures and archive-skipped
downloads try the next variant; a created file is kept and the loop ends. -/
def m4a_row_go (provider : String → VariantResponse) (ctx : RowCtx) (i : ℕ) :
    List String → Option String × List NotFoundEntry
  | [] => (none, [])
  | v :: rest =>
    let vr := provider (query ctx v)
    match vr.downloadOutcome (m4a_download_spec ctx v vr) with
    | .ageRestricted => (none, [nfEntry ctx i "Age-restricted video"])
    | .otherFailure => m4a_row_go provider ctx i rest
    | .noNewFile => m4a_row_go provider ctx i rest
    | .fileCreated => (some (m4aBase ctx i v ++ ".m4a"), [])

/-- One m4a row: the loop's outcome, plus the post-loop
`'No valid download'` record appended whenever no file was produced —
including after an age-restricted break, which therefore records the row
twice. -/
def m4a_row (provider : String → VariantResponse) (ctx : RowCtx) (i : ℕ)
    (variants : List String) : List String × List NotFoundEntry :=
  match m4a_row_go provider ctx i variants with
  | (some f, nfs) => ([f], nfs)
  | (none, nfs) => ([], nfs ++ [nfEntry ctx i "No valid download"])

/-- The row loop of `convert_csv_to_m4a` (rows enumerated from 1). -/
def m4a_go (provider : String → VariantResponse) (cfg : JobConfig)
    (playlistName : String) : ℕ → List SourceRow → List String × List NotFoundEntry
  | _, [] => ([], [])
  | i, r :: rest =>
    let ctx := mkRowCtx cfg playlistName r
    let this := m4a_row provider ctx i (searchVariantsFor cfg.variants ctx.title)
    let next := m4a_go provider cfg playlistName (i + 1) rest
    (this.1 ++ next.1, this.2 ++ next.2)

/-- `DownloadService.convert_csv_to_m4a`, as the pair
`(downloaded, not_found)`. -/
def convert_csv_to_m4a (provider : String → VariantResponse) (cfg : JobConfig)
    (playlistName : String) (rows : List SourceRow) : List String × List NotFoundEntry :=
  m4a_go provider cfg playlistName 1 rows

/-- The sub-list of fetch completions that end up in `scored` (playlist
mode): successfully fetched, passing the filters, with a non-empty id. -/
def recordedOf (ctx : RowCtx) (variant : String) (r : FetchResult) : Option VideoInfo :=
  match fetch_metadata r with
  | none => none
  | some info =>
    if phase2_reject ctx variant info = false ∧ info.id ≠ "" then some info else none

/-- All candidates of a completion sequence that reach `scored`. -/
def recorded (ctx : RowCtx) (variant : String) (l : List FetchResult) : List VideoInfo :=
  l.filterMap (recordedOf ctx variant)

/-! ## Spec-side restatement of the Phase-1 scoring components

These three definitions follow the wording of the specification (§4.2) and
of claim C2, to be compared with the code-side components above.  The
spec's "when a reference duration is known" is read with the code's
truthiness convention (`some s`, `s ≠ 0`); word fractions use the
`0 / 0 = 0` convention of `ℚ`, which coincides with the code's
`matched_words > 0` guard. -/

/-- Fraction of `src`'s whitespace-words occurring as substrings of
`target`. -/
def matchedWordFraction (src target : String) : ℚ :=
  let ws := pyWords src
  ((ws.filter (fun w => strContains target w)).length : ℚ) / (ws.length : ℚ)

/-- Spec title component: 40 for a (case-insensitive) prefix match, 30 for
mere containment, else `20 * matchedWordFraction`. -/
def specTitlePts (vidTitle rowTitle : String) : ℚ :=
  if strStartsWith (toLow vidTitle) (toLow rowTitle) then 40
  else if strContains (toLow vidTitle) (toLow rowTitle) then 30
  else 20 * matchedWordFraction (toLow rowTitle) (toLow vidTitle)

/-- Spec artist component: skipped for an empty or (case-insensitively)
"unknown" artist; 30 for containment in the uploader, else
`15 * matchedWordFraction`. -/
def specArtistPts (uploader artist : String) : ℚ :=
  if artist = "" ∨ toLow artist = "unknown" then 0
  else if strContains (toLow uploader) (toLow artist) then 30
  else 15 * matchedWordFraction (toLow artist) (toLow uploader)

/-- Spec duration component: 0 outside the window, else 20 plus a +10/+5
closeness bonus against a known reference duration. -/
def specDurationPts (duration : ℚ) (spotifySec : Option ℚ)
    (durationMin durationMax : ℚ) : ℚ :=
  if duration < durationMin ∨ duration > durationMax then 0
  else
    20 +
      match spotifySec with
      | some s =>
        if s ≠ 0 then
          if |duration - s| ≤ 5 then 10
          else if |duration - s| ≤ 10 then 5
          else 0
        else 0
      | none => 0

/-! ### Concrete instances used in the claim theorems -/

/-- Row context for claim C5: artist "Unknown". -/
def ctxC5 : RowCtx :=
  { title := "Song", artistPrimary := "Unknown", safeArtist := "Unknown", safeTitle := "Song",
    album := "A", spotifySec := none, durationMin := 0, durationMax := 600 }

/-- The C5 row context with the artist cleared, isolating the artist
clause. -/
def ctxC5noArtist : RowCtx :=
  { title := "Song", artistPrimary := "", safeArtist := "", safeTitle := "Song",
    album := "A", spotifySec := none, durationMin := 0, durationMax := 600 }

/-- A candidate for C5 passing every filter except possibly the artist
clause (uploader does not contain "unknown"). -/
def infoC5 : VideoInfo :=
  { id := "v1", title := "Song", uploader := "SomeChannel", duration := 100, webpageUrl := none }

/-- Row context for claim C6: title "Hello", artist "Adele",
window [60, 600]. -/
def ctxC6 : RowCtx :=
  { title := "Hello", artistPrimary := "Adele", safeArtist := "Adele", safeTitle := "Hello",
    album := "A", spotifySec := none, durationMin := 60, durationMax := 600 }

/-- The good second candidate for C6, surviving and scoring 100. -/
def goodC6 : VideoInfo :=
  { id := "g1", title := "Hello", uploader := "Adele", duration := 200, webpageUrl := none }

/-- The wide-search entry for C6 (only its existence matters). -/
def entryC6 : VideoInfo :=
  { id := "g1", title := "Hello", uploader := "Adele", duration := 200, webpageUrl := none }

/-- C6 provider: empty Phase-1 result, one wide candidate, and a completion
order in which an age-restricted fetch arrives before the good fetch. -/
def providerC6 : String → VariantResponse := fun _ =>
  { searchEntries := [], wideEntries := [entryC6],
    fetchCompletion := [FetchResult.ageRestricted, FetchResult.ok goodC6],
    downloadOutcome := fun _ => DownloadOutcome.otherFailure }

/-- C6 witness provider (m4a mode): every download is age-restricted. -/
def providerC6m : String → VariantResponse := fun _ =>
  { searchEntries := [], wideEntries := [], fetchCompletion := [],
    downloadOutcome := fun _ => DownloadOutcome.ageRestricted }

/-- Row context for claim C7: window [60, 600] so that the empty Phase-1
probe scores 0. -/
def ctxC7 : RowCtx :=
  { title := "Song", artistPrimary := "Artist", safeArtist := "Artist", safeTitle := "Song",
    album := "A", spotifySec := none, durationMin := 60, durationMax := 600 }

/-- C7 provider: every search comes back empty, yet every download attempt
succeeds (so the `ytsearch1` fallback download visibly resolves the row). -/
def providerC7 : String → VariantResponse := fun _ =>
  { searchEntries := [], wideEntries := [], fetchCompletion := [],
    downloadOutcome := fun _ => DownloadOutcome.fileCreated }

/-- Row context for claim C8: title "Hello", no artist, window [0, 600]. -/
def ctxC8 : RowCtx :=
  { title := "Hello", artistPrimary := "", safeArtist := "", safeTitle := "Hello",
    album := "A", spotifySec := none, durationMin := 0, durationMax := 600 }

/-- C8: first surviving candidate, scoring 100. -/
def infoC8a : VideoInfo :=
  { id := "a", title := "Hello A", uploader := "X", duration := 100, webpageUrl := none }

/-- C8: second surviving candidate, also scoring 100. -/
def infoC8b : VideoInfo :=
  { id := "b", title := "Hello B", uploader := "Y", duration := 120, webpageUrl := none }

/-- C8: a surviving candidate scoring only 80 (no title-prefix match). -/
def infoC8lo : VideoInfo :=
  { id := "lo", title := "Say Hello", uploader := "Y", duration := 120, webpageUrl := none }

/-- The single input row for claim C1. -/
def rowC1 : SourceRow :=
  { trackName := "Song", artistNames := "Artist", albumName := "Alb", durationMs := "" }

/-- Job configuration for claim C1 (defaults). -/
def cfgC1 : JobConfig :=
  { durationMin := 0, durationMax := 600, variants := [""] }

/-- C1 provider: every download attempt reports the age-restriction
failure. -/
def providerC1 : String → VariantResponse := fun _ =>
  { searchEntries := [], wideEntries := [], fetchCompletion := [],
    downloadOutcome := fun _ => DownloadOutcome.ageRestricted }

/-- Row context for claim C4: title "Hello", no artist, window [0, 600],
no reference duration. -/
def ctxC4 : RowCtx :=
  { title := "Hello", artistPrimary := "", safeArtist := "", safeTitle := "Hello",
    album := "A", spotifySec := none, durationMin := 0, durationMax := 600 }

/-- A candidate for C4 that survives every filter and scores 100 but has an
empty id. -/
def infoC4 : VideoInfo :=
  { id := "", title := "Hello", uploader := "X", duration := 200, webpageUrl := none }

/-- A candidate for C4's witness that survives with an id and scores 100. -/
def wInfoC4 : VideoInfo :=
  { id := "w1", title := "Hello Live", uploader := "X", duration := 200, webpageUrl := none }

/-- A candidate for C4's witness that survives with an id and scores 80. -/
def loInfoC4 : VideoInfo :=
  { id := "lo1", title := "Say Hello", uploader := "X", duration := 200, webpageUrl := none }

end MyMusic

namespace MyMusic

/-! ## Supporting lemmas -/

/-- A prefix of a list is an occurring substring of it. -/
theorem containsSub_of_isPrefixOf (n h : List Char) (hp : n.isPrefixOf h = true) :
    containsSub n h = true := by
  cases h with
  | nil => cases n with
    | nil => rfl
    | cons c t => simp [List.isPrefixOf] at hp
  | cons c t => simp [containsSub, hp]

/-- Python: `hay.startswith(pre)` implies `pre in hay`. -/
theorem strContains_of_strStartsWith (hay pre : String)
    (hp : strStartsWith hay pre = true) : strContains hay pre = true :=
  containsSub_of_isPrefixOf _ _ hp

/-- A word fraction `m / n` with `m ≤ n` lies in `[0, 1]` (including the
degenerate `0 / 0 = 0`). -/
theorem frac_bounds (m n : ℕ) (h : m ≤ n) :
    0 ≤ (m : ℚ) / (n : ℚ) ∧ (m : ℚ) / (n : ℚ) ≤ 1 := by
  constructor
  · positivity
  · rcases Nat.eq_zero_or_pos n with h0 | h0
    · subst h0
      simp
    · rw [div_le_one (by exact_mod_cast h0)]
      exact_mod_cast h

/-- The code's `matched_words > 0` guard around a word-fraction product
coincides with the unguarded product (`0 / n = 0` and `m / 0 = 0` in `ℚ`). -/
theorem guard_mul (m n : ℕ) (k : ℚ) :
    (if 0 < m then ((m : ℚ) / (n : ℚ)) * k else 0) = k * ((m : ℚ) / (n : ℚ)) := by
  split
  · ring
  · next hm =>
      have h0 : m = 0 := Nat.eq_zero_of_not_pos hm
      subst h0
      simp

/-- The code's title component is the spec's title component. -/
theorem codeTitlePts_eq_spec (vt st : String) :
    codeTitlePts vt st = specTitlePts vt st := by
  unfold codeTitlePts specTitlePts matchedWordFraction
  by_cases h1 : strContains (toLow vt) (toLow st) = true
  · by_cases h2 : strStartsWith (toLow vt) (toLow st) = true
    · simp [h1, h2]
    · simp [h1, h2]
  · have h2 : ¬ strStartsWith (toLow vt) (toLow st) = true :=
      fun h => h1 (strContains_of_strStartsWith _ _ h)
    simp only [if_neg h1, if_neg h2]
    exact guard_mul _ _ 20

/-- The code's artist component is the spec's artist component. -/
theorem codeArtistPts_eq_spec (up sa : String) :
    codeArtistPts up sa = specArtistPts up sa := by
  unfold codeArtistPts specArtistPts matchedWordFraction
  by_cases hskip : sa = "" ∨ toLow sa = "unknown"
  · have : ¬ (sa ≠ "" ∧ toLow sa ≠ "unknown") := by tauto
    rw [if_neg this, if_pos hskip]
  · have hact : sa ≠ "" ∧ toLow sa ≠ "unknown" := by tauto
    rw [if_pos hact, if_neg hskip]
    by_cases h1 : strContains (toLow up) (toLow sa) = true
    · simp [h1]
    · simp only [if_neg h1]
      exact guard_mul _ _ 15

/-- The window test `duration_min ≤ d ≤ duration_max` is the complement of
the spec's "outside the window". -/
theorem window_compl (d mn mx : ℚ) :
    (d < mn ∨ d > mx) ↔ ¬ (mn ≤ d ∧ d ≤ mx) := by
  constructor
  · rintro (h | h) ⟨h1, h2⟩
    · exact absurd h1 (not_le.mpr h)
    · exact absurd h2 (not_le.mpr h)
  · intro h
    rcases not_and_or.mp h with h1 | h2
    · exact Or.inl (not_le.mp h1)
    · exact Or.inr (not_le.mp h2)

/-- The code's duration component is the spec's duration component. -/
theorem codeDurationPts_eq_spec (d : ℚ) (sp : Option ℚ) (mn mx : ℚ) :
    codeDurationPts d sp mn mx = specDurationPts d sp mn mx := by
  unfold codeDurationPts specDurationPts
  by_cases h : mn ≤ d ∧ d ≤ mx
  · rw [if_pos h, if_neg (fun hc => (window_compl d mn mx).mp hc h)]
  · rw [if_neg h, if_pos ((window_compl d mn mx).mpr h)]

/-! ## Claim C2 -/

/-- C2.  `score_phase1_result` is the integer part of the sum of three
independent components — title (40/30/20·fraction), artist (skipped for an
empty or "unknown" artist, else 30/15·fraction) and duration (0 out of
window, else 20 plus the +10/+5 closeness bonus) — exactly as the spec
describes them. -/
theorem C2_phase1_score_is_sum_of_components (vt up : String) (d : ℚ)
    (st sa : String) (sp : Option ℚ) (mn mx : ℚ) :
    score_phase1_result vt up d st sa sp mn mx =
      ⌊specTitlePts vt st + specArtistPts up sa + specDurationPts d sp mn mx⌋ := by
  unfold score_phase1_result score_phase1_core
  rw [codeTitlePts_eq_spec, codeArtistPts_eq_spec, codeDurationPts_eq_spec]

/-! ## Claim C10 -/

/-- The code's title component lies in `[0, 40]`. -/
theorem codeTitlePts_bounds (vt st : String) :
    0 ≤ codeTitlePts vt st ∧ codeTitlePts vt st ≤ 40 := by
  unfold codeTitlePts
  dsimp only
  split
  · split <;> norm_num
  · split
    · next hm =>
        have hle := List.length_filter_le (fun w => strContains (toLow vt) w)
          (pyWords (toLow st))
        have hf := frac_bounds _ _ hle
        constructor
        · have := hf.1
          positivity
        · have h20 : ((List.filter (fun w => strContains (toLow vt) w)
              (pyWords (toLow st))).length : ℚ) / ((pyWords (toLow st)).length : ℚ) * 20 ≤ 20 := by
            nlinarith [hf.2]
          linarith
    · norm_num

/-- The code's artist component lies in `[0, 30]`. -/
theorem codeArtistPts_bounds (up sa : String) :
    0 ≤ codeArtistPts up sa ∧ codeArtistPts up sa ≤ 30 := by
  unfold codeArtistPts
  dsimp only
  split
  · split
    · norm_num
    · split
      · next hm =>
          have hle := List.length_filter_le (fun w => strContains (toLow up) w)
            (pyWords (toLow sa))
          have hf := frac_bounds _ _ hle
          constructor
          · have := hf.1
            positivity
          · have h15 : ((List.filter (fun w => strContains (toLow up) w)
                (pyWords (toLow sa))).length : ℚ) / ((pyWords (toLow sa)).length : ℚ) * 15 ≤ 15 := by
              nlinarith [hf.2]
            linarith
      · norm_num
  · norm_num

/-- The code's duration component lies in `[0, 30]`. -/
theorem codeDurationPts_bounds (d : ℚ) (sp : Option ℚ) (mn mx : ℚ) :
    0 ≤ codeDurationPts d sp mn mx ∧ codeDurationPts d sp mn mx ≤ 30 := by
  unfold codeDurationPts
  split
  · rcases sp with _ | s
    · norm_num
    · simp only
      split
      · split
        · norm_num
        · split <;> norm_num
      · norm_num
  · norm_num

/-- C10.  For all inputs, `score_phase1_result` is total and returns an
integer in `[0, 100]`; the partial-match word fractions are well defined
because the `matched_words > 0` guards keep every division away from an
empty word list (`guard_mul` and `frac_bounds` above make this explicit). -/
theorem C10_phase1_score_in_range (vt up : String) (d : ℚ)
    (st sa : String) (sp : Option ℚ) (mn mx : ℚ) :
    0 ≤ score_phase1_result vt up d st sa sp mn mx ∧
      score_phase1_result vt up d st sa sp mn mx ≤ 100 := by
  have ht := codeTitlePts_bounds vt st
  have ha := codeArtistPts_bounds up sa
  have hd := codeDurationPts_bounds d sp mn mx
  unfold score_phase1_result
  constructor
  · refine Int.le_floor.mpr ?_
    push_cast
    unfold score_phase1_core
    linarith
  · have hle : score_phase1_core vt up d st sa sp mn mx ≤ 100 := by
      unfold score_phase1_core
      linarith
    calc ⌊score_phase1_core vt up d st sa sp mn mx⌋ ≤ ⌊(100 : ℚ)⌋ :=
          Int.floor_le_floor hle
      _ = 100 := by norm_num

/-! ## Claim C9 -/

/-- C9 counterexample.  The spec's worked example assigns the candidate
`("Yesterday Cover", "RandomChannel", 400)` a title component of 30
("contains") and a total of 30; but `"yesterday cover"` starts with
`"yesterday"`, so the code awards 40 and the total is 40, not 30. -/
theorem C9_counterexample :
    score_phase1_result "Yesterday Cover" "RandomChannel" 400 "Yesterday" "The Beatles"
        (some 125) 60 300 = 40 ∧
      ¬ score_phase1_result "Yesterday Cover" "RandomChannel" 400 "Yesterday" "The Beatles"
        (some 125) 60 300 = 30 := by
  constructor
  all_goals simp +decide only [score_phase1_result, score_phase1_core, codeTitlePts,
    codeArtistPts, codeDurationPts]
  all_goals norm_num

/-- C9 (amended).  For the row ("Yesterday", "The Beatles", 125s, window
[60, 300]) the Phase-1 candidate ("Yesterday Cover", "RandomChannel", 400)
earns 0 duration points (out of range), 40 title points (the candidate
title starts with the row title), 0 artist points, for a total of exactly
40, which is below the threshold 70 and so falls through to Phase 2. -/
theorem C9_example_scores_40_below_threshold :
    specDurationPts 400 (some 125) 60 300 = 0 ∧
      specTitlePts "Yesterday Cover" "Yesterday" = 40 ∧
      specArtistPts "RandomChannel" "The Beatles" = 0 ∧
      score_phase1_result "Yesterday Cover" "RandomChannel" 400 "Yesterday" "The Beatles"
        (some 125) 60 300 = 40 ∧
      score_phase1_result "Yesterday Cover" "RandomChannel" 400 "Yesterday" "The Beatles"
        (some 125) 60 300 < 70 := by
  refine ⟨?_, ?_, ?_, ?_, ?_⟩
  all_goals simp +decide only [score_phase1_result, score_phase1_core, codeTitlePts,
    codeArtistPts, codeDurationPts, specTitlePts, specArtistPts, specDurationPts,
    matchedWordFraction]
  all_goals try norm_num
  all_goals decide

/-! ## Claim C3 -/

/-- Lowercasing preserves emptiness. -/
theorem toLow_eq_empty_iff (s : String) : toLow s = "" ↔ s = "" := by
  obtain ⟨data⟩ := s
  cases data with
  | nil => simp [toLow]
  | cons c t =>
    constructor <;> intro h <;> simpa [toLow] using congrArg String.data h

/-- C3.  A fetched Phase-2 candidate is rejected before scoring exactly when
at least one of the five guards fires: duration outside the window; a
short-form marker in the url or lowercased title; a non-empty sanitized
primary artist absent from the uploader; a non-empty active variant absent
from the title; or the first five normalized title words not occurring in
order (each search resuming strictly after the previous match, per
`contains_keywords_in_order`). -/
theorem C3_phase2_filter_characterization (ctx : RowCtx) (variant : String)
    (info : VideoInfo) :
    phase2_reject ctx variant info = true ↔
      (info.duration < ctx.durationMin ∨ info.duration > ctx.durationMax) ∨
      (strContains (info.webpageUrl.getD "") "shorts/" = true ∨
        strContains (toLow info.title) "#shorts" = true) ∨
      (ctx.safeArtist ≠ "" ∧ strContains (toLow info.uploader) (toLow ctx.safeArtist) = false) ∨
      (variant ≠ "" ∧ strContains (toLow info.title) (toLow variant) = false) ∨
      contains_keywords_in_order info.title (firstWords ctx) = false := by
  unfold phase2_reject
  dsimp only
  split_ifs with h1 h2 h3 h4 h5 <;>
    simp_all [toLow_eq_empty_iff, Bool.not_eq_true]

/-! ## Phase-2 loop machinery -/

/-- Python's `max(..., key=first)` returns an element of the list. -/
theorem pyMax_mem {α : Type} (x : ℚ × α) (xs : List (ℚ × α)) :
    pyMax x xs ∈ x :: xs := by
  induction xs generalizing x with
  | nil => simp [pyMax]
  | cons y ys ih =>
    unfold pyMax
    rcases List.mem_cons.mp (ih (if x.1 < y.1 then y else x)) with h1 | h1
    · rw [h1]
      split
      · simp
      · simp
    · simp [List.mem_cons.mpr (Or.inr h1)]

/-- Python's `max(..., key=first)` dominates every element's key. -/
theorem pyMax_fst {α : Type} (x : ℚ × α) (xs : List (ℚ × α)) :
    ∀ y ∈ x :: xs, y.1 ≤ (pyMax x xs).1 := by
  induction xs generalizing x with
  | nil =>
    intro y hy
    rw [List.mem_singleton] at hy
    rw [hy]
    simp [pyMax]
  | cons z zs ih =>
    intro y hy
    unfold pyMax
    have hx : x.1 ≤ (if x.1 < z.1 then z else x).1 := by
      split
      · next h => exact le_of_lt h
      · exact le_refl _
    have hz : z.1 ≤ (if x.1 < z.1 then z else x).1 := by
      split
      · exact le_refl _
      · next h => exact le_of_not_lt h
    have hbase := ih (if x.1 < z.1 then z else x) _ (List.mem_cons_self _ _)
    rcases List.mem_cons.mp hy with h | h
    · rw [h]
      exact le_trans hx hbase
    · rcases List.mem_cons.mp h with h2 | h2
      · rw [h2]
        exact le_trans hz hbase
      · exact ih _ _ (List.mem_cons.mpr (Or.inr h2))

/-- `recorded` skips a failed fetch. -/
theorem recorded_cons_none {ctx : RowCtx} {variant : String} {r : FetchResult}
    (l : List FetchResult) (hr : fetch_metadata r = none) :
    recorded ctx variant (r :: l) = recorded ctx variant l := by
  simp [recorded, List.filterMap_cons, recordedOf, hr]

/-- `recorded` skips a filtered or id-less candidate. -/
theorem recorded_cons_skip {ctx : RowCtx} {variant : String} {r : FetchResult}
    {info : VideoInfo} (l : List FetchResult) (hr : fetch_metadata r = some info)
    (h : ¬ (phase2_reject ctx variant info = false ∧ info.id ≠ "")) :
    recorded ctx variant (r :: l) = recorded ctx variant l := by
  simp [recorded, List.filterMap_cons, recordedOf, hr, if_neg h]

/-- `recorded` keeps a surviving candidate with an id. -/
theorem recorded_cons_keep {ctx : RowCtx} {variant : String} {r : FetchResult}
    {info : VideoInfo} (l : List FetchResult) (hr : fetch_metadata r = some info)
    (h : phase2_reject ctx variant info = false ∧ info.id ≠ "") :
    recorded ctx variant (r :: l) = info :: recorded ctx variant l := by
  simp [recorded, List.filterMap_cons, recordedOf, hr, if_pos h]

/-- When no recorded candidate reaches 90, the consumption loop runs to the
end and `scored` collects exactly the recorded candidates, in completion
order. -/
theorem phase2_loop_all_low (ctx : RowCtx) (variant : String) :
    ∀ (l : List FetchResult) (acc : List (ℚ × Track)),
      (∀ i ∈ recorded ctx variant l, phase2_score ctx i < 90) →
      phase2_loop ctx variant l acc =
        (none, acc ++ (recorded ctx variant l).map
          (fun i => (phase2_score ctx i, trackFromInfo ctx i))) := by
  intro l
  induction l with
  | nil => intro acc _; simp [phase2_loop, recorded]
  | cons r rest ih =>
    intro acc h
    cases hr : fetch_metadata r with
    | none =>
      rw [recorded_cons_none rest hr] at h ⊢
      simp only [phase2_loop, hr]
      exact ih acc h
    | some info =>
      by_cases hrej : phase2_reject ctx variant info = true
      · have hskip : ¬ (phase2_reject ctx variant info = false ∧ info.id ≠ "") := by
          simp [hrej]
        rw [recorded_cons_skip rest hr hskip] at h ⊢
        simp only [phase2_loop, hr, if_pos hrej]
        exact ih acc h
      · have hrej2 : phase2_reject ctx variant info = false := by
          simpa using hrej
        by_cases hid : info.id ≠ ""
        · have hkeep : phase2_reject ctx variant info = false ∧ info.id ≠ "" := ⟨hrej2, hid⟩
          rw [recorded_cons_keep rest hr hkeep] at h ⊢
          have hlow : phase2_score ctx info < 90 := h info (List.mem_cons_self _ _)
          simp only [phase2_loop, hr, if_neg hrej, if_pos hid, if_neg (not_le.mpr hlow)]
          rw [ih _ (fun i hi => h i (List.mem_cons.mpr (Or.inr hi)))]
          simp
        · have hskip : ¬ (phase2_reject ctx variant info = false ∧ info.id ≠ "") := by
            tauto
          rw [recorded_cons_skip rest hr hskip] at h ⊢
          simp only [phase2_loop, hr, if_neg hrej, if_neg hid]
          exact ih acc h

/-- A track accepted early by the consumption loop is the track of some
recorded candidate scoring at least 90. -/
theorem phase2_loop_some (ctx : RowCtx) (variant : String) :
    ∀ (l : List FetchResult) (acc acc' : List (ℚ × Track)) (t : Track),
      phase2_loop ctx variant l acc = (some t, acc') →
      ∃ i, i ∈ recorded ctx variant l ∧ 90 ≤ phase2_score ctx i ∧
        t = trackFromInfo ctx i := by
  intro l
  induction l with
  | nil => intro acc acc' t h; simp [phase2_loop] at h
  | cons r rest ih =>
    intro acc acc' t h
    cases hr : fetch_metadata r with
    | none =>
      simp only [phase2_loop, hr] at h
      obtain ⟨i, hi, hs, ht⟩ := ih acc acc' t h
      exact ⟨i, by rw [recorded_cons_none rest hr]; exact hi, hs, ht⟩
    | some info =>
      by_cases hrej : phase2_reject ctx variant info = true
      · simp only [phase2_loop, hr, if_pos hrej] at h
        obtain ⟨i, hi, hs, ht⟩ := ih acc acc' t h
        refine ⟨i, ?_, hs, ht⟩
        rw [recorded_cons_skip rest hr (by simp [hrej])]
        exact hi
      · have hrej2 : phase2_reject ctx variant info = false := by simpa using hrej
        by_cases hid : info.id ≠ ""
        · by_cases hhi : 90 ≤ phase2_score ctx info
          · simp only [phase2_loop, hr, if_neg hrej, if_pos hid, if_pos hhi,
              Prod.mk.injEq, Option.some.injEq] at h
            refine ⟨info, ?_, hhi, h.1.symm⟩
            rw [recorded_cons_keep rest hr ⟨hrej2, hid⟩]
            exact List.mem_cons_self _ _
          · simp only [phase2_loop, hr, if_neg hrej, if_pos hid, if_neg hhi] at h
            obtain ⟨i, hi, hs, ht⟩ := ih _ acc' t h
            refine ⟨i, ?_, hs, ht⟩
            rw [recorded_cons_keep rest hr ⟨hrej2, hid⟩]
            exact List.mem_cons.mpr (Or.inr hi)
        · simp only [phase2_loop, hr, if_neg hrej, if_neg hid] at h
          obtain ⟨i, hi, hs, ht⟩ := ih acc acc' t h
          refine ⟨i, ?_, hs, ht⟩
          rw [recorded_cons_skip rest hr (by tauto)]
          exact hi

/-- If some recorded candidate scores at least 90, the loop accepts early. -/
theorem phase2_loop_reaches (ctx : RowCtx) (variant : String) :
    ∀ (l : List FetchResult) (acc : List (ℚ × Track)),
      (∃ i ∈ recorded ctx variant l, 90 ≤ phase2_score ctx i) →
      ∃ t acc', phase2_loop ctx variant l acc = (some t, acc') := by
  intro l
  induction l with
  | nil =>
    intro acc h
    simp [recorded] at h
  | cons r rest ih =>
    intro acc h
    cases hr : fetch_metadata r with
    | none =>
      rw [recorded_cons_none rest hr] at h
      obtain ⟨t, acc', ht⟩ := ih acc h
      exact ⟨t, acc', by simpa only [phase2_loop, hr] using ht⟩
    | some info =>
      by_cases hrej : phase2_reject ctx variant info = true
      · rw [recorded_cons_skip rest hr (by simp [hrej])] at h
        obtain ⟨t, acc', ht⟩ := ih acc h
        exact ⟨t, acc', by simpa only [phase2_loop, hr, if_pos hrej] using ht⟩
      · have hrej2 : phase2_reject ctx variant info = false := by simpa using hrej
        by_cases hid : info.id ≠ ""
        · rw [recorded_cons_keep rest hr ⟨hrej2, hid⟩] at h
          by_cases hhi : 90 ≤ phase2_score ctx info
          · refine ⟨trackFromInfo ctx info,
              acc ++ [(phase2_score ctx info, trackFromInfo ctx info)], ?_⟩
            simp only [phase2_loop, hr, if_neg hrej, if_pos hid, if_pos hhi]
          · have h' : ∃ i ∈ recorded ctx variant rest, 90 ≤ phase2_score ctx i := by
              obtain ⟨i, hi, hs⟩ := h
              rcases List.mem_cons.mp hi with h0 | h0
              · exact absurd (h0 ▸ hs) hhi
              · exact ⟨i, h0, hs⟩
            obtain ⟨t, acc', ht⟩ :=
              ih (acc ++ [(phase2_score ctx info, trackFromInfo ctx info)]) h'
            refine ⟨t, acc', ?_⟩
            simpa only [phase2_loop, hr, if_neg hrej, if_pos hid, if_neg hhi] using ht
        · rw [recorded_cons_skip rest hr (by tauto)] at h
          obtain ⟨t, acc', ht⟩ := ih acc h
          exact ⟨t, acc', by simpa only [phase2_loop, hr, if_neg hrej, if_neg hid] using ht⟩

/-- If every recorded candidate before `w` scores below 90 and `w` survives
with an id and scores at least 90, the loop accepts `w`'s track, whatever
still follows in the completion order. -/
theorem phase2_loop_first_high (ctx : RowCtx) (variant : String) :
    ∀ (pre post : List FetchResult) (acc : List (ℚ × Track)) (w : VideoInfo),
      (∀ i ∈ recorded ctx variant pre, phase2_score ctx i < 90) →
      phase2_reject ctx variant w = false → w.id ≠ "" → 90 ≤ phase2_score ctx w →
      ∃ acc', phase2_loop ctx variant (pre ++ FetchResult.ok w :: post) acc =
        (some (trackFromInfo ctx w), acc') := by
  intro pre
  induction pre with
  | nil =>
    intro post acc w _ hrej hid hhi
    refine ⟨acc ++ [(phase2_score ctx w, trackFromInfo ctx w)], ?_⟩
    simp only [List.nil_append, phase2_loop, fetch_metadata, hrej, if_pos hid, if_pos hhi]
    simp
  | cons r rest ih =>
    intro post acc w hpre hrej hid hhi
    cases hr : fetch_metadata r with
    | none =>
      rw [recorded_cons_none rest hr] at hpre
      obtain ⟨acc', hl⟩ := ih post acc w hpre hrej hid hhi
      exact ⟨acc', by simpa only [List.cons_append, phase2_loop, hr] using hl⟩
    | some info =>
      by_cases hrej0 : phase2_reject ctx variant info = true
      · rw [recorded_cons_skip rest hr (by simp [hrej0])] at hpre
        obtain ⟨acc', hl⟩ := ih post acc w hpre hrej hid hhi
        exact ⟨acc', by simpa only [List.cons_append, phase2_loop, hr, if_pos hrej0] using hl⟩
      · have hrej2 : phase2_reject ctx variant info = false := by simpa using hrej0
        by_cases hid0 : info.id ≠ ""
        · rw [recorded_cons_keep rest hr ⟨hrej2, hid0⟩] at hpre
          have hlow : phase2_score ctx info < 90 := hpre info (List.mem_cons_self _ _)
          obtain ⟨acc', hl⟩ := ih post (acc ++ [(phase2_score ctx info, trackFromInfo ctx info)])
            w (fun i hi => hpre i (List.mem_cons.mpr (Or.inr hi))) hrej hid hhi
          refine ⟨acc', ?_⟩
          simpa only [List.cons_append, phase2_loop, hr, hrej2, Bool.false_eq_true,
            if_false, if_pos hid0, if_neg (not_le.mpr hlow)] using hl
        · rw [recorded_cons_skip rest hr (by tauto)] at hpre
          obtain ⟨acc', hl⟩ := ih post acc w hpre hrej hid hhi
          refine ⟨acc', ?_⟩
          simpa only [List.cons_append, phase2_loop, hr, hrej2, Bool.false_eq_true,
            if_false, if_neg hid0] using hl

/-- Select-level early exit: the first recorded candidate scoring ≥ 90 in
completion order is accepted, and the completions after it are irrelevant. -/
theorem phase2_select_first_high (ctx : RowCtx) (variant : String)
    (pre post : List FetchResult) (w : VideoInfo)
    (hpre : ∀ i ∈ recorded ctx variant pre, phase2_score ctx i < 90)
    (hrej : phase2_reject ctx variant w = false) (hid : w.id ≠ "")
    (hhi : 90 ≤ phase2_score ctx w) :
    phase2_select ctx variant (pre ++ FetchResult.ok w :: post) =
      some (trackFromInfo ctx w) := by
  obtain ⟨acc', hl⟩ := phase2_loop_first_high ctx variant pre post [] w hpre hrej hid hhi
  unfold phase2_select
  rw [hl]

/-- Select-level maximum: with at least one recorded candidate and none
reaching 90, a maximum-scoring recorded candidate's track is accepted. -/
theorem phase2_select_max (ctx : RowCtx) (variant : String) (l : List FetchResult)
    (hne : recorded ctx variant l ≠ [])
    (hlow : ∀ i ∈ recorded ctx variant l, phase2_score ctx i < 90) :
    ∃ c ∈ recorded ctx variant l,
      phase2_select ctx variant l = some (trackFromInfo ctx c) ∧
        ∀ i ∈ recorded ctx variant l, phase2_score ctx i ≤ phase2_score ctx c := by
  have hl := phase2_loop_all_low ctx variant l [] hlow
  unfold phase2_select
  rw [hl]
  cases hrec : recorded ctx variant l with
  | nil => exact absurd hrec hne
  | cons c0 cs =>
    simp only [hrec, List.nil_append, List.map_cons]
    have hmem : pyMax (phase2_score ctx c0, trackFromInfo ctx c0)
        (cs.map (fun i => (phase2_score ctx i, trackFromInfo ctx i))) ∈
        (c0 :: cs).map (fun i => (phase2_score ctx i, trackFromInfo ctx i)) := by
      rw [List.map_cons]
      exact pyMax_mem _ _
    obtain ⟨c, hc, hcp⟩ := List.mem_map.mp hmem
    refine ⟨c, hc, ?_, ?_⟩
    · rw [← hcp]
    · intro i hi
      have hpair : (phase2_score ctx i, trackFromInfo ctx i) ∈
          (c0 :: cs).map (fun i => (phase2_score ctx i, trackFromInfo ctx i)) :=
        List.mem_map.mpr ⟨i, hi, rfl⟩
      rw [List.map_cons] at hpair
      have hle := pyMax_fst (phase2_score ctx c0, trackFromInfo ctx c0)
        (cs.map (fun i => (phase2_score ctx i, trackFromInfo ctx i))) _ hpair
      calc phase2_score ctx i = (phase2_score ctx i, trackFromInfo ctx i).1 := rfl
        _ ≤ _ := hle
        _ = phase2_score ctx c := by rw [← hcp]

/-! ## Claim C4 -/

/-- C4 counterexample.  A fetched candidate that survives every filter and
scores 100 (≥ 90) but carries an empty id is never accepted: the loop's
`if vid_id:` gate drops it from `scored` and from the early exit, so a
completion sequence consisting only of this candidate resolves to nothing,
contradicting the claim that every surviving candidate reaching 90 is
accepted. -/
theorem C4_counterexample :
    phase2_reject ctxC4 "" infoC4 = false ∧
      90 ≤ phase2_score ctxC4 infoC4 ∧
      phase2_select ctxC4 "" [FetchResult.ok infoC4] = none := by
  refine ⟨by decide, ?_, by decide⟩
  simp +decide only [phase2_score, ctxC4, infoC4]
  norm_num

/-- C4 (amended).  Among surviving candidates **with a non-empty id**:
each is scored 100 (title-prefix match) or 80 minus the absolute duration
difference (`phase2_score`); the first one in completion order to reach a
score of at least 90 is accepted immediately and the remaining completions
are ignored rather than awaited; otherwise, if any survived, a
maximum-scoring one is accepted. -/
theorem C4_phase2_acceptance (ctx : RowCtx) (variant : String) :
    (∀ (pre post : List FetchResult) (w : VideoInfo),
      (∀ i ∈ recorded ctx variant pre, phase2_score ctx i < 90) →
      phase2_reject ctx variant w = false → w.id ≠ "" → 90 ≤ phase2_score ctx w →
      phase2_select ctx variant (pre ++ FetchResult.ok w :: post) =
        some (trackFromInfo ctx w)) ∧
    (∀ l : List FetchResult, recorded ctx variant l ≠ [] →
      (∀ i ∈ recorded ctx variant l, phase2_score ctx i < 90) →
      ∃ c ∈ recorded ctx variant l,
        phase2_select ctx variant l = some (trackFromInfo ctx c) ∧
          ∀ i ∈ recorded ctx variant l, phase2_score ctx i ≤ phase2_score ctx c) :=
  ⟨fun pre post w hpre hrej hid hhi =>
      phase2_select_first_high ctx variant pre post w hpre hrej hid hhi,
    fun l hne hlow => phase2_select_max ctx variant l hne hlow⟩

/-- C4 witness: the amended theorem applied to concrete completions — a
scoring-100 candidate accepted ahead of an unexplored tail, and a
scoring-80 lone survivor accepted as the maximum. -/
theorem C4_witness :
    phase2_select ctxC4 "" ([] ++ FetchResult.ok wInfoC4 :: [FetchResult.malformed]) =
      some (trackFromInfo ctxC4 wInfoC4) ∧
    ∃ c ∈ recorded ctxC4 "" [FetchResult.ok loInfoC4],
      phase2_select ctxC4 "" [FetchResult.ok loInfoC4] = some (trackFromInfo ctxC4 c) ∧
        ∀ i ∈ recorded ctxC4 "" [FetchResult.ok loInfoC4],
          phase2_score ctxC4 i ≤ phase2_score ctxC4 c := by
  constructor
  · refine (C4_phase2_acceptance ctxC4 "").1 [] [FetchResult.malformed] wInfoC4
      (by decide) (by decide) (by decide) ?_
    simp +decide only [phase2_score, ctxC4, wInfoC4]
    norm_num
  · refine (C4_phase2_acceptance ctxC4 "").2 [FetchResult.ok loInfoC4] (by decide) ?_
    have h : recorded ctxC4 "" [FetchResult.ok loInfoC4] = [loInfoC4] := by decide
    rw [h]
    intro i hi
    rw [List.mem_singleton] at hi
    subst hi
    simp +decide only [phase2_score, ctxC4, loInfoC4]
    norm_num

/-! ## Claim C5 -/

/-- C5 counterexample.  For a row whose artist is "Unknown", the Phase-2
artist-presence filter **is** applied: `safe_artist.lower()` is the truthy
string "unknown", so a candidate whose uploader does not contain "unknown"
is rejected — the same candidate passes when the artist is empty. -/
theorem C5_counterexample :
    phase2_reject ctxC5 "" infoC5 = true ∧
      phase2_reject ctxC5noArtist "" infoC5 = false := by
  decide

/-- C5 (amended).  A row artist equal to "unknown" (case-insensitively)
skips the Phase-1 artist component entirely — the score does not depend on
the uploader — but in Phase 2 the artist-presence filter is still applied:
since the sanitized artist lowercases to the non-empty string "unknown",
any candidate whose uploader does not contain "unknown" is rejected. -/
theorem C5_unknown_artist_bypass :
    (∀ (vt up up' : String) (d : ℚ) (st sa : String) (sp : Option ℚ) (mn mx : ℚ),
      toLow sa = "unknown" →
      score_phase1_result vt up d st sa sp mn mx =
        score_phase1_result vt up' d st sa sp mn mx) ∧
    (∀ (ctx : RowCtx) (variant : String) (info : VideoInfo),
      toLow ctx.safeArtist = "unknown" →
      strContains (toLow info.uploader) "unknown" = false →
      phase2_reject ctx variant info = true) := by
  constructor
  · intro vt up up' d st sa sp mn mx h
    have ha : ∀ u : String, codeArtistPts u sa = 0 := by
      intro u
      unfold codeArtistPts
      rw [if_neg (fun hc => hc.2 h)]
    unfold score_phase1_result score_phase1_core
    rw [ha up, ha up']
  · intro ctx variant info h hc
    unfold phase2_reject
    dsimp only
    split_ifs with h1 h2 h3 h4 h5 <;> try rfl
    all_goals
      exact absurd ⟨by rw [h]; decide, by rw [h, hc]; decide⟩ h3

/-- C5 witness: the amended theorem at a concrete "Unknown"-artist row —
two different uploaders score identically in Phase 1, and the Phase-2
filter rejects the concrete candidate. -/
theorem C5_witness :
    score_phase1_result "Song" "ChannelA" 100 "Song" "Unknown" none 0 600 =
      score_phase1_result "Song" "ChannelB" 100 "Song" "Unknown" none 0 600 ∧
      phase2_reject ctxC5 "" infoC5 = true :=
  ⟨C5_unknown_artist_bypass.1 "Song" "ChannelA" "ChannelB" 100 "Song" "Unknown" none 0 600
      (by decide),
    C5_unknown_artist_bypass.2 ctxC5 "" infoC5 (by decide) (by decide)⟩

/-! ## Claim C6 -/

/-- A failed fetch (age-restricted or malformed) contributes nothing:
the selection over the remaining completions is unchanged. -/
theorem phase2_select_cons_failed (ctx : RowCtx) (variant : String)
    (r : FetchResult) (l : List FetchResult) (hr : fetch_metadata r = none) :
    phase2_select ctx variant (r :: l) = phase2_select ctx variant l := by
  unfold phase2_select
  simp only [phase2_loop, hr]

/-- C6 counterexample.  In playlist mode an age-restricted signal is not
terminal for the row: with a completion order delivering an age-restricted
fetch first, the row is still resolved to the later good candidate's track
on the same variant — it is neither recorded as not found nor does it stop
variant processing. -/
theorem C6_counterexample :
    FetchResult.ageRestricted ∈ (providerC6 (query ctxC6 "")).fetchCompletion ∧
      resolve_row providerC6 ctxC6 [""] = some (trackFromInfo ctxC6 goodC6) := by
  constructor
  · decide
  · have hp1 : phase1Score ctxC6 (providerC6 (query ctxC6 "")) = 0 := by
      simp +decide only [phase1Score, providerC6, score_phase1_result, score_phase1_core,
        codeTitlePts, codeArtistPts, codeDurationPts, ctxC6, List.head?, Option.map,
        Option.getD]
      norm_num
    have hsel : phase2_select ctxC6 ""
        (providerC6 (query ctxC6 "")).fetchCompletion = some (trackFromInfo ctxC6 goodC6) := by
      have h1 : (providerC6 (query ctxC6 "")).fetchCompletion =
          [FetchResult.ageRestricted, FetchResult.ok goodC6] := rfl
      rw [h1, phase2_select_cons_failed ctxC6 "" _ _ (by decide)]
      have h2 : ([FetchResult.ok goodC6] : List FetchResult) =
          [] ++ FetchResult.ok goodC6 :: [] := rfl
      rw [h2]
      refine phase2_select_first_high ctxC6 "" [] [] goodC6 (by decide) (by decide)
        (by decide) ?_
      simp +decide only [phase2_score, ctxC6, goodC6]
      norm_num
    unfold resolve_row
    rw [if_neg (by rw [hp1]; decide)]
    rw [if_neg (by decide)]
    rw [hsel]

/-- C6 (amended).  The age-restriction signal is terminal for a row only in
download (m4a) mode: there, an age-restricted download records the
distinguished "Age-restricted video" reason and no further variants are
attempted (the loop result does not depend on the remaining variants; the
completeness bug of C1 additionally appends "No valid download").  In
playlist mode an age-restricted metadata fetch merely drops that one
candidate and resolution continues. -/
theorem C6_age_restricted_handling :
    (∀ (provider : String → VariantResponse) (ctx : RowCtx) (i : ℕ)
        (v : String) (rest : List String),
      (provider (query ctx v)).downloadOutcome
          (m4a_download_spec ctx v (provider (query ctx v))) =
        DownloadOutcome.ageRestricted →
      m4a_row provider ctx i (v :: rest) =
        ([], [nfEntry ctx i "Age-restricted video", nfEntry ctx i "No valid download"])) ∧
    (∀ (ctx : RowCtx) (variant : String) (l : List FetchResult),
      phase2_select ctx variant (FetchResult.ageRestricted :: l) =
        phase2_select ctx variant l) := by
  constructor
  · intro provider ctx i v rest h
    unfold m4a_row m4a_row_go
    simp only [h]
    rfl
  · intro ctx variant l
    exact phase2_select_cons_failed ctx variant _ l rfl

/-- C6 witness: the amended theorem at concrete inputs — an m4a row whose
first variant download is age-restricted stops with the two records, and a
playlist selection ignores a leading age-restricted completion. -/
theorem C6_witness :
    m4a_row providerC6m ctxC6 1 ["", "alt"] =
      ([], [nfEntry ctxC6 1 "Age-restricted video", nfEntry ctxC6 1 "No valid download"]) ∧
      phase2_select ctxC6 "" (FetchResult.ageRestricted :: [FetchResult.malformed]) =
        phase2_select ctxC6 "" [FetchResult.malformed] :=
  ⟨C6_age_restricted_handling.1 providerC6m ctxC6 1 "" ["alt"] rfl,
    C6_age_restricted_handling.2 ctxC6 "" [FetchResult.malformed]⟩

/-! ## Claim C7 -/

/-- C7 counterexample.  In m4a mode a Phase-2 wide search with zero
candidates does **not** fall through to the next variant: the download spec
falls back to `ytsearch1:q` and the variant proceeds to download, so with a
provider returning no candidates anywhere the row is still downloaded on
the first variant (the claim would make it unmatched). -/
theorem C7_counterexample :
    (providerC7 (query ctxC7 "")).wideEntries = [] ∧
      m4a_row providerC7 ctxC7 1 ["", "alt"] = (["001 - Song.m4a"], []) := by
  constructor
  · rfl
  · decide

/-- C7 (amended).  In playlist mode a wide search with zero candidates (a
malformed or empty response) falls through to the next variant whenever
Phase 1 scored below 70; in m4a (download) mode it instead sets the
download spec to the `ytsearch1:` fallback query and the variant proceeds
to download. -/
theorem C7_zero_candidates_handling :
    (∀ (provider : String → VariantResponse) (ctx : RowCtx) (v : String)
        (rest : List String),
      ¬ 70 ≤ phase1Score ctx (provider (query ctx v)) →
      (provider (query ctx v)).wideEntries = [] →
      resolve_row provider ctx (v :: rest) = resolve_row provider ctx rest) ∧
    (∀ (ctx : RowCtx) (v : String) (vr : VariantResponse),
      ¬ 70 ≤ phase1Score ctx vr →
      vr.wideEntries = [] →
      m4a_download_spec ctx v vr = "ytsearch1:" ++ query ctx v) := by
  constructor
  · intro provider ctx v rest h70 hw
    conv_lhs => unfold resolve_row
    rw [if_neg h70, hw]
    simp
  · intro ctx v vr h70 hw
    conv_lhs => unfold m4a_download_spec
    rw [if_neg h70, hw]
    simp

/-- C7 witness: the amended theorem at the concrete empty-search provider —
the playlist loop falls through to the remaining (empty) variant list, and
the m4a download spec is the literal fallback query. -/
theorem C7_witness :
    resolve_row providerC7 ctxC7 [""] = resolve_row providerC7 ctxC7 [] ∧
      m4a_download_spec ctxC7 "" (providerC7 (query ctxC7 "")) =
        "ytsearch1:" ++ query ctxC7 "" := by
  have h70 : ¬ 70 ≤ phase1Score ctxC7 (providerC7 (query ctxC7 "")) := by
    have hp1 : phase1Score ctxC7 (providerC7 (query ctxC7 "")) = 0 := by
      simp +decide only [phase1Score, providerC7, score_phase1_result, score_phase1_core,
        codeTitlePts, codeArtistPts, codeDurationPts, ctxC7, List.head?, Option.map,
        Option.getD]
      norm_num
    rw [hp1]
    decide
  exact ⟨C7_zero_candidates_handling.1 providerC7 ctxC7 "" [] h70 rfl,
    C7_zero_candidates_handling.2 ctxC7 "" (providerC7 (query ctxC7 "")) h70 rfl⟩

/-! ## Claim C8 -/

/-- With no recorded candidate at all, Phase 2 selects nothing. -/
theorem phase2_select_empty (ctx : RowCtx) (variant : String) (l : List FetchResult)
    (h : recorded ctx variant l = []) : phase2_select ctx variant l = none := by
  have hl := phase2_loop_all_low ctx variant l []
    (by rw [h]; intro i hi; simp at hi)
  unfold phase2_select
  rw [hl, h]
  rfl

/-- If `w` is the unique recorded candidate scoring ≥ 90, Phase 2 selects
`w`'s track regardless of completion order. -/
theorem phase2_select_unique_high (ctx : RowCtx) (variant : String)
    (l : List FetchResult) (w : VideoInfo) (hw : w ∈ recorded ctx variant l)
    (hhi : 90 ≤ phase2_score ctx w)
    (huniq : ∀ i ∈ recorded ctx variant l, 90 ≤ phase2_score ctx i → i = w) :
    phase2_select ctx variant l = some (trackFromInfo ctx w) := by
  obtain ⟨t, acc', hl⟩ := phase2_loop_reaches ctx variant l [] ⟨w, hw, hhi⟩
  obtain ⟨i, hi, his, hit⟩ := phase2_loop_some ctx variant l [] acc' t hl
  unfold phase2_select
  rw [hl, hit, huniq i hi his]

/-- If no recorded candidate reaches 90 and `w` is the unique maximum,
Phase 2 selects `w`'s track regardless of completion order. -/
theorem phase2_select_unique_max (ctx : RowCtx) (variant : String)
    (l : List FetchResult) (w : VideoInfo)
    (hlow : ∀ i ∈ recorded ctx variant l, phase2_score ctx i < 90)
    (hw : w ∈ recorded ctx variant l)
    (hmax : ∀ i ∈ recorded ctx variant l, phase2_score ctx i ≤ phase2_score ctx w)
    (huniq : ∀ i ∈ recorded ctx variant l,
      phase2_score ctx i = phase2_score ctx w → i = w) :
    phase2_select ctx variant l = some (trackFromInfo ctx w) := by
  have hne : recorded ctx variant l ≠ [] := by
    intro h
    rw [h] at hw
    simp at hw
  obtain ⟨c, hc, hsel, hcm⟩ := phase2_select_max ctx variant l hne hlow
  have h1 : phase2_score ctx c = phase2_score ctx w :=
    le_antisymm (hmax c hc) (hcm w hw)
  rw [hsel, huniq c hc h1]

/-- C8 counterexample.  The selected MatchResult **does** depend on the
completion order of the concurrent fetches: with two surviving candidates
both scoring ≥ 90, whichever completes first is accepted by the early exit,
and the two orders of the same fixed responses yield different tracks. -/
theorem C8_counterexample :
    ([FetchResult.ok infoC8a, FetchResult.ok infoC8b] : List FetchResult).Perm
        [FetchResult.ok infoC8b, FetchResult.ok infoC8a] ∧
      phase2_select ctxC8 "" [FetchResult.ok infoC8a, FetchResult.ok infoC8b] =
        some (trackFromInfo ctxC8 infoC8a) ∧
      phase2_select ctxC8 "" [FetchResult.ok infoC8b, FetchResult.ok infoC8a] =
        some (trackFromInfo ctxC8 infoC8b) ∧
      trackFromInfo ctxC8 infoC8a ≠ trackFromInfo ctxC8 infoC8b := by
  refine ⟨List.Perm.swap _ _ _, ?_, ?_, by decide⟩
  · have e : ([FetchResult.ok infoC8a, FetchResult.ok infoC8b] : List FetchResult) =
        [] ++ FetchResult.ok infoC8a :: [FetchResult.ok infoC8b] := rfl
    rw [e]
    refine phase2_select_first_high ctxC8 "" [] [FetchResult.ok infoC8b] infoC8a
      (by decide) (by decide) (by decide) ?_
    simp +decide only [phase2_score, ctxC8, infoC8a]
    norm_num
  · have e : ([FetchResult.ok infoC8b, FetchResult.ok infoC8a] : List FetchResult) =
        [] ++ FetchResult.ok infoC8b :: [FetchResult.ok infoC8a] := rfl
    rw [e]
    refine phase2_select_first_high ctxC8 "" [] [FetchResult.ok infoC8a] infoC8b
      (by decide) (by decide) (by decide) ?_
    simp +decide only [phase2_score, ctxC8, infoC8b]
    norm_num

/-- C8 (amended).  Phase-2 selection is a pure function of the fixed
provider responses **and their completion order**; it is additionally
invariant under reordering of the completions whenever (a) no candidate is
recorded, or (b) exactly one recorded candidate reaches 90, or (c) none
reaches 90 and the maximum score is attained by exactly one recorded
candidate. -/
theorem C8_order_invariance (ctx : RowCtx) (variant : String)
    (l1 l2 : List FetchResult) (hp : l1.Perm l2) :
    (recorded ctx variant l1 = [] →
      phase2_select ctx variant l1 = none ∧ phase2_select ctx variant l2 = none) ∧
    (∀ w ∈ recorded ctx variant l1, 90 ≤ phase2_score ctx w →
      (∀ i ∈ recorded ctx variant l1, 90 ≤ phase2_score ctx i → i = w) →
      phase2_select ctx variant l1 = some (trackFromInfo ctx w) ∧
        phase2_select ctx variant l2 = some (trackFromInfo ctx w)) ∧
    ((∀ i ∈ recorded ctx variant l1, phase2_score ctx i < 90) →
      ∀ w ∈ recorded ctx variant l1,
      (∀ i ∈ recorded ctx variant l1, phase2_score ctx i ≤ phase2_score ctx w) →
      (∀ i ∈ recorded ctx variant l1, phase2_score ctx i = phase2_score ctx w → i = w) →
      phase2_select ctx variant l1 = some (trackFromInfo ctx w) ∧
        phase2_select ctx variant l2 = some (trackFromInfo ctx w)) := by
  have hrec : (recorded ctx variant l1).Perm (recorded ctx variant l2) :=
    hp.filterMap (recordedOf ctx variant)
  refine ⟨?_, ?_, ?_⟩
  · intro h
    exact ⟨phase2_select_empty ctx variant l1 h,
      phase2_select_empty ctx variant l2 (List.Perm.eq_nil (h ▸ hrec.symm))⟩
  · intro w hw hhi huniq
    refine ⟨phase2_select_unique_high ctx variant l1 w hw hhi huniq,
      phase2_select_unique_high ctx variant l2 w (hrec.mem_iff.mp hw) hhi ?_⟩
    intro i hi his
    exact huniq i (hrec.mem_iff.mpr hi) his
  · intro hlow w hw hmax huniq
    refine ⟨phase2_select_unique_max ctx variant l1 w hlow hw hmax huniq,
      phase2_select_unique_max ctx variant l2 w ?_ (hrec.mem_iff.mp hw) ?_ ?_⟩
    · intro i hi
      exact hlow i (hrec.mem_iff.mpr hi)
    · intro i hi
      exact hmax i (hrec.mem_iff.mpr hi)
    · intro i hi
      exact huniq i (hrec.mem_iff.mpr hi)

/-- C8 witness: the amended theorem at concrete completion sequences — an
all-failed pair, a unique-high pair in both orders, and a unique-max pair
in both orders. -/
theorem C8_witness :
    (phase2_select ctxC8 "" [FetchResult.malformed] = none ∧
      phase2_select ctxC8 "" [FetchResult.malformed] = none) ∧
    (phase2_select ctxC8 "" [FetchResult.ok infoC8a, FetchResult.ok infoC8lo] =
        some (trackFromInfo ctxC8 infoC8a) ∧
      phase2_select ctxC8 "" [FetchResult.ok infoC8lo, FetchResult.ok infoC8a] =
        some (trackFromInfo ctxC8 infoC8a)) ∧
    (phase2_select ctxC8 "" [FetchResult.ok infoC8lo, FetchResult.malformed] =
        some (trackFromInfo ctxC8 infoC8lo) ∧
      phase2_select ctxC8 "" [FetchResult.malformed, FetchResult.ok infoC8lo] =
        some (trackFromInfo ctxC8 infoC8lo)) := by
  have hsa : 90 ≤ phase2_score ctxC8 infoC8a := by
    simp +decide only [phase2_score, ctxC8, infoC8a]
    norm_num
  have hslo : phase2_score ctxC8 infoC8lo = 80 := by
    simp +decide only [phase2_score, ctxC8, infoC8lo]
    norm_num
  have hr1 : recorded ctxC8 "" [FetchResult.ok infoC8a, FetchResult.ok infoC8lo] =
      [infoC8a, infoC8lo] := by decide
  have hr2 : recorded ctxC8 "" [FetchResult.ok infoC8lo, FetchResult.malformed] =
      [infoC8lo] := by decide
  refine ⟨(C8_order_invariance ctxC8 "" _ _ (List.Perm.refl _)).1 (by decide), ?_, ?_⟩
  · refine (C8_order_invariance ctxC8 "" _ _ (by decide)).2.1 infoC8a
      (by rw [hr1]; exact List.mem_cons_self _ _) hsa ?_
    rw [hr1]
    intro i hi his
    rcases List.mem_cons.mp hi with h1 | h1
    · exact h1
    · rw [List.mem_singleton] at h1
      subst h1
      rw [hslo] at his
      norm_num at his
  · refine (C8_order_invariance ctxC8 "" _ _ (by decide)).2.2 ?_ infoC8lo
      (by rw [hr2]; exact List.mem_cons_self _ _) ?_ ?_
    · rw [hr2]
      intro i hi
      rw [List.mem_singleton] at hi
      subst hi
      rw [hslo]
      norm_num
    · rw [hr2]
      intro i hi
      rw [List.mem_singleton] at hi
      subst hi
      exact le_refl _
    · rw [hr2]
      intro i hi _
      rw [List.mem_singleton] at hi
      exact hi

/-! ## Claim C1 -/

/-- C1 (code bug).  In `convert_csv_to_m4a` an age-restricted row is
appended to `not_found` **twice**: once inside the variant loop with reason
"Age-restricted video" and again by the post-loop `if not best_file:` check
with reason "No valid download".  For a one-row job whose download is
age-restricted, `len(downloaded) + len(not_found) = 2 ≠ 1 = len(rows)`,
violating the claimed partition invariant. -/
theorem C1_m4a_partition_violated :
    (convert_csv_to_m4a providerC1 cfgC1 "pl" [rowC1]).1.length +
        (convert_csv_to_m4a providerC1 cfgC1 "pl" [rowC1]).2.length = 2 ∧
      [rowC1].length = 1 ∧
      (convert_csv_to_m4a providerC1 cfgC1 "pl" [rowC1]).2 =
        [nfEntry (mkRowCtx cfgC1 "pl" rowC1) 1 "Age-restricted video",
          nfEntry (mkRowCtx cfgC1 "pl" rowC1) 1 "No valid download"] := by
  decide

end MyMusic
